import Mathlib

/-
Verification development for the webm_to_mp4 job-orchestration layer.

Shallow embedding of:
  * src/modules/ffmpeg-progress-calculator.js  (FFmpegProgressCalculator)
  * src/modules/github-pages-config.js         (loadFFmpegWithRetry)
  * src/modules/ffmpeg-converter-optimized.js  (getOptimalSettings, convertWithWorker
    message handling, cancelConversion, convertDirect, compositeDirect)
  * src/modules/ffmpeg-worker.js               (convertVideo, compositeVideo)

JS numbers are modelled as rationals (ℚ); wall-clock time is passed in
explicitly as the elapsed seconds since the calculator start; the network,
the module loader and the codec engine are modelled as boolean-valued
environments indexed by source/attempt or by call number.
-/

namespace WebmToMp4

/-- JS Math.round: round half toward positive infinity, `⌊q + 1/2⌋`. -/
def jsRound (q : ℚ) : ℚ := ((⌊q + 1/2⌋ : ℤ) : ℚ)

/-! ## Decimal scanning helpers (for the regexes in parseTimeInfo) -/

/-- Numeric value of a decimal digit character. -/
def digitVal (c : Char) : ℕ := c.toNat - 48

/-- Value of a digit string read as a natural number. -/
def natOfDigits (l : List Char) : ℕ := l.foldl (fun acc c => acc * 10 + digitVal c) 0

/-- Value of `intPart.fracPart` as a rational, as parseFloat would produce. -/
def decimalOfDigits (intPart fracPart : List Char) : ℚ :=
  (natOfDigits intPart : ℚ) + (natOfDigits fracPart : ℚ) / (10 : ℚ) ^ fracPart.length

/-- Leftmost match of the backup regex `(\d+\.?\d*)` of parseTimeInfo
    (ffmpeg-progress-calculator.js line 125): at the first digit, greedily read
    digits, an optional dot, then further digits. -/
def findSimpleNumber : List Char → Option ℚ
  | [] => none
  | c :: rest =>
    if c.isDigit then
      let intPart := c :: rest.takeWhile Char.isDigit
      let after := rest.dropWhile Char.isDigit
      let fracPart :=
        match after with
        | '.' :: tl => tl.takeWhile Char.isDigit
        | _ => []
      some (decimalOfDigits intPart fracPart)
    else findSimpleNumber rest

/-- Expect each character of `pat` literally at the head of `l`; return the
    remainder on success. -/
def stripPattern : List Char → List Char → Option (List Char)
  | [], l => some l
  | _ :: _, [] => none
  | p :: ps, x :: xs => if x = p then stripPattern ps xs else none

/-- Read exactly two digit characters (`\d\x7b2\x7d`) as a two-digit number. -/
def twoDigits : List Char → Option (ℕ × List Char)
  | a :: b :: rest =>
    if a.isDigit ∧ b.isDigit then some (natOfDigits [a, b], rest) else none
  | _ => none

/-- The optional fractional group `(?:\.\d+)?` of the seconds: the digits after
    a dot (empty both when there is no dot and when no digit follows it, in
    which case the optional group does not participate in the match). -/
def secondsFraction : List Char → List Char
  | '.' :: tl => tl.takeWhile Char.isDigit
  | _ => []

/-- Attempt the regex `time=(\d\x7b2\x7d):(\d\x7b2\x7d):(\d\x7b2\x7d(?:\.\d+)?)`
    of parseTimeInfo (line 114) at the head of the character list; on success,
    return total seconds `hours * 3600 + minutes * 60 + seconds` as computed at
    lines 116-119. -/
def matchFFmpegTimeAt (l : List Char) : Option ℚ :=
  match stripPattern ['t', 'i', 'm', 'e', '='] l with
  | none => none
  | some l1 =>
    match twoDigits l1 with
    | none => none
    | some (hh, l2) =>
      match stripPattern [':'] l2 with
      | none => none
      | some l3 =>
        match twoDigits l3 with
        | none => none
        | some (mm, l4) =>
          match stripPattern [':'] l4 with
          | none => none
          | some l5 =>
            match twoDigits l5 with
            | none => none
            | some (ss, rest) =>
              let fr := secondsFraction rest
              some ((hh : ℚ) * 3600 + (mm : ℚ) * 60 +
                ((ss : ℚ) + (natOfDigits fr : ℚ) / (10 : ℚ) ^ fr.length))

/-- Leftmost occurrence of the ffmpeg time pattern anywhere in the string. -/
def findFFmpegTime : List Char → Option ℚ
  | [] => none
  | c :: rest =>
    match matchFFmpegTimeAt (c :: rest) with
    | some q => some q
    | none => findFFmpegTime rest

/-- The `timeInfo` argument of calculateProgress: a JS number or a string. -/
inductive TimeInfo where
  | num (x : ℚ)
  | str (s : String)

/-- FFmpegProgressCalculator.parseTimeInfo (lines 106-139): a number is
    returned as-is; a string is first matched against the ffmpeg
    `time=HH:MM:SS(.f)` pattern, then against a bare number, which is divided
    by 1,000,000 when it exceeds 1,000,000. -/
def parseTimeInfo : TimeInfo → Option ℚ
  | .num x => some x
  | .str s =>
    match findFFmpegTime s.data with
    | some t => some t
    | none =>
      match findSimpleNumber s.data with
      | some t => some (if t > 1000000 then t / 1000000 else t)
      | none => none

/-! ## FFmpegProgressCalculator state and calculateProgress -/

/-- Mutable fields of one FFmpegProgressCalculator instance (wall-clock
    startTime is replaced by passing the elapsed seconds into each call). -/
structure CalcState where
  totalDuration : ℚ
  lastValidPercent : ℚ
  lastValidTime : ℚ
  skipInitialSeconds : ℚ
deriving Repr, DecidableEq

/-- Which branch of calculateProgress produced the result (the `reason`
    strings of the source, as an enumeration). -/
inductive Reason where
  | warmUp
  | parseFailed
  | outOfRange
  | regress
  | success
deriving Repr, DecidableEq

/-- Return value of calculateProgress. -/
structure ProgressResult where
  percent : ℚ
  time : ℚ
  isValid : Bool
  reason : Reason
deriving Repr, DecidableEq

/-- State after the constructor plus setTotalDuration (or reset):
    lastValidPercent = 0, lastValidTime = 0. -/
def initialCalc (totalDuration skipInitialSeconds : ℚ) : CalcState :=
  ⟨totalDuration, 0, 0, skipInitialSeconds⟩

/-- FFmpegProgressCalculator.isTimeValid (lines 146-150). -/
def isTimeValid (st : CalcState) (time : ℚ) : Bool :=
  if time ≤ 0 then false
  else if st.totalDuration ≤ 0 then true
  else decide (time ≤ st.totalDuration * (6 / 5))

/-- The time-based percent of calculateProgress lines 72-76:
    `min(round(parsedTime / totalDuration * 100), 100)` when the duration is
    known, otherwise the initial value 0. -/
def timeBasedPercent (st : CalcState) (parsedTime : ℚ) : ℚ :=
  if 0 < st.totalDuration then min (jsRound (parsedTime / st.totalDuration * 100)) 100
  else 0

/-- FFmpegProgressCalculator.selectBestPercent (lines 158-171). -/
def selectBestPercent (st : CalcState) (ffmpegPercent tbp : ℚ) : ℚ :=
  if 0 < st.totalDuration ∧ 0 ≤ tbp ∧ tbp ≤ 100 then tbp
  else if 0 ≤ ffmpegPercent ∧ ffmpegPercent ≤ 100 then jsRound ffmpegPercent
  else st.lastValidPercent

/-- FFmpegProgressCalculator.calculateProgress (lines 41-99). `elapsed` is the
    wall-clock seconds since the calculator start. Returns the result object
    and the calculator state after the call. -/
def calculateProgress (st : CalcState) (elapsed ffmpegPercent : ℚ) (timeInfo : TimeInfo) :
    ProgressResult × CalcState :=
  if elapsed < st.skipInitialSeconds then
    (⟨st.lastValidPercent, st.lastValidTime, false, .warmUp⟩, st)
  else
    match parseTimeInfo timeInfo with
    | none => (⟨st.lastValidPercent, st.lastValidTime, false, .parseFailed⟩, st)
    | some parsedTime =>
      if isTimeValid st parsedTime = false then
        (⟨st.lastValidPercent, st.lastValidTime, false, .outOfRange⟩, st)
      else
        if selectBestPercent st ffmpegPercent (timeBasedPercent st parsedTime) <
            st.lastValidPercent then
          (⟨st.lastValidPercent, st.lastValidTime, false, .regress⟩, st)
        else
          (⟨selectBestPercent st ffmpegPercent (timeBasedPercent st parsedTime),
              parsedTime, true, .success⟩,
           { st with
              lastValidPercent := selectBestPercent st ffmpegPercent (timeBasedPercent st parsedTime),
              lastValidTime := parsedTime })

/-- One raw progress sample fed to the calculator. -/
structure Sample where
  elapsed : ℚ
  ffmpegPercent : ℚ
  timeInfo : TimeInfo

/-- Feed a sequence of samples through one calculator instance. -/
def runCalc (st : CalcState) : List Sample → List ProgressResult × CalcState
  | [] => ([], st)
  | s :: rest =>
    let r := calculateProgress st s.elapsed s.ffmpegPercent s.timeInfo
    let rs := runCalc r.2 rest
    (r.1 :: rs.1, rs.2)

/-- Percent values of the accepted (isValid) results, in order. -/
def acceptedPercents (rs : List ProgressResult) : List ℚ :=
  (rs.filter fun r => r.isValid).map fun r => r.percent

/-! ## Step lemmas for calculateProgress -/

theorem calculateProgress_step (st : CalcState) (e fp : ℚ) (ti : TimeInfo) :
    ((calculateProgress st e fp ti).2).lastValidPercent = (calculateProgress st e fp ti).1.percent ∧
    ((calculateProgress st e fp ti).1.isValid = false →
      (calculateProgress st e fp ti).2 = st ∧
      (calculateProgress st e fp ti).1.percent = st.lastValidPercent ∧
      (calculateProgress st e fp ti).1.time = st.lastValidTime) ∧
    ((calculateProgress st e fp ti).1.isValid = true →
      st.lastValidPercent ≤ (calculateProgress st e fp ti).1.percent) := by
  unfold calculateProgress
  split
  · exact ⟨rfl, fun _ => ⟨rfl, rfl, rfl⟩, by simp⟩
  · split
    · exact ⟨rfl, fun _ => ⟨rfl, rfl, rfl⟩, by simp⟩
    · split
      · exact ⟨rfl, fun _ => ⟨rfl, rfl, rfl⟩, by simp⟩
      · split
        · exact ⟨rfl, fun _ => ⟨rfl, rfl, rfl⟩, by simp⟩
        · rename_i hge
          exact ⟨rfl, by simp, fun _ => le_of_not_lt hge⟩

theorem calculateProgress_percent_eq_state (st : CalcState) (e fp : ℚ) (ti : TimeInfo) :
    ((calculateProgress st e fp ti).2).lastValidPercent =
      (calculateProgress st e fp ti).1.percent :=
  (calculateProgress_step st e fp ti).1

theorem calculateProgress_invalid_state (st : CalcState) (e fp : ℚ) (ti : TimeInfo)
    (h : (calculateProgress st e fp ti).1.isValid = false) :
    (calculateProgress st e fp ti).2 = st :=
  ((calculateProgress_step st e fp ti).2.1 h).1

theorem calculateProgress_invalid_result (st : CalcState) (e fp : ℚ) (ti : TimeInfo)
    (h : (calculateProgress st e fp ti).1.isValid = false) :
    (calculateProgress st e fp ti).1.percent = st.lastValidPercent ∧
      (calculateProgress st e fp ti).1.time = st.lastValidTime :=
  ((calculateProgress_step st e fp ti).2.1 h).2

theorem calculateProgress_valid_ge (st : CalcState) (e fp : ℚ) (ti : TimeInfo)
    (h : (calculateProgress st e fp ti).1.isValid = true) :
    st.lastValidPercent ≤ (calculateProgress st e fp ti).1.percent :=
  (calculateProgress_step st e fp ti).2.2 h

theorem jsRound_nonneg {q : ℚ} (h : 0 ≤ q) : 0 ≤ jsRound q := by
  unfold jsRound
  have : (0 : ℤ) ≤ ⌊q + 1/2⌋ := by
    rw [Int.le_floor]
    push_cast
    linarith
  exact_mod_cast this

theorem jsRound_le_100 {q : ℚ} (h : q ≤ 100) : jsRound q ≤ 100 := by
  unfold jsRound
  have : ⌊q + 1/2⌋ < 101 := by
    rw [Int.floor_lt]
    push_cast
    linarith
  have h2 : ⌊q + 1/2⌋ ≤ 100 := by omega
  exact_mod_cast h2

theorem selectBestPercent_bounds (st : CalcState) (fp tbp : ℚ)
    (h0 : 0 ≤ st.lastValidPercent) (h100 : st.lastValidPercent ≤ 100) :
    0 ≤ selectBestPercent st fp tbp ∧ selectBestPercent st fp tbp ≤ 100 := by
  unfold selectBestPercent
  split
  · rename_i hc
    exact ⟨hc.2.1, hc.2.2⟩
  · split
    · rename_i hc
      exact ⟨jsRound_nonneg hc.1, jsRound_le_100 hc.2⟩
    · exact ⟨h0, h100⟩

theorem calculateProgress_state_bounds (st : CalcState) (e fp : ℚ) (ti : TimeInfo)
    (h0 : 0 ≤ st.lastValidPercent) (h100 : st.lastValidPercent ≤ 100) :
    0 ≤ ((calculateProgress st e fp ti).2).lastValidPercent ∧
      ((calculateProgress st e fp ti).2).lastValidPercent ≤ 100 := by
  unfold calculateProgress
  split
  · exact ⟨h0, h100⟩
  · split
    · exact ⟨h0, h100⟩
    · split
      · exact ⟨h0, h100⟩
      · split
        · exact ⟨h0, h100⟩
        · rename_i pt _ _ _
          exact selectBestPercent_bounds st fp (timeBasedPercent st pt) h0 h100

theorem runCalc_chain (st : CalcState) (samples : List Sample) :
    List.Chain' (· ≤ ·)
      (st.lastValidPercent :: acceptedPercents (runCalc st samples).1) := by
  induction samples generalizing st with
  | nil => simp [runCalc, acceptedPercents]
  | cons s rest ih =>
    rw [runCalc]
    rcases hv : (calculateProgress st s.elapsed s.ffmpegPercent s.timeInfo).1.isValid with hf | ht
    · have hstate := calculateProgress_invalid_state st s.elapsed s.ffmpegPercent s.timeInfo hv
      simpa [acceptedPercents, hv, hstate] using ih st
    · have hge := calculateProgress_valid_ge st s.elapsed s.ffmpegPercent s.timeInfo hv
      have hpe := calculateProgress_percent_eq_state st s.elapsed s.ffmpegPercent s.timeInfo
      have htail := ih (calculateProgress st s.elapsed s.ffmpegPercent s.timeInfo).2
      rw [hpe] at htail
      simp only [acceptedPercents, List.filter_cons, hv, if_pos, List.map_cons]
      exact List.Chain'.cons hge (by simpa [acceptedPercents] using htail)

theorem runCalc_bounds (st : CalcState) (samples : List Sample)
    (h0 : 0 ≤ st.lastValidPercent) (h100 : st.lastValidPercent ≤ 100) :
    0 ≤ ((runCalc st samples).2).lastValidPercent ∧
      ((runCalc st samples).2).lastValidPercent ≤ 100 := by
  induction samples generalizing st with
  | nil => exact ⟨h0, h100⟩
  | cons s rest ih =>
    rw [runCalc]
    obtain ⟨b0, b100⟩ := calculateProgress_state_bounds st s.elapsed s.ffmpegPercent s.timeInfo h0 h100
    exact ih _ b0 b100

/-! ## Claim C1 -/

/-- C1: for every FFmpegProgressCalculator instance and every sequence of calls
    to calculateProgress, the subsequence of results with isValid = true has
    non-decreasing percent values; a call whose computed best percent is
    strictly less than the last accepted percent returns isValid = false and
    leaves lastValidPercent and lastValidTime unchanged. -/
theorem accepted_progress_monotone :
    (∀ (st : CalcState) (samples : List Sample),
      List.Chain' (· ≤ ·) (acceptedPercents (runCalc st samples).1)) ∧
    (∀ (st : CalcState) (e fp : ℚ) (ti : TimeInfo) (t : ℚ),
      st.skipInitialSeconds ≤ e →
      parseTimeInfo ti = some t →
      isTimeValid st t = true →
      selectBestPercent st fp (timeBasedPercent st t) < st.lastValidPercent →
      (calculateProgress st e fp ti).1.isValid = false ∧
        ((calculateProgress st e fp ti).2).lastValidPercent = st.lastValidPercent ∧
        ((calculateProgress st e fp ti).2).lastValidTime = st.lastValidTime) := by
  constructor
  · intro st samples
    exact (runCalc_chain st samples).tail
  · intro st e fp ti t hskip hp hvalid hlt
    unfold calculateProgress
    rw [if_neg (not_lt.2 hskip), hp]
    simp only [hvalid, if_pos hlt]
    exact ⟨rfl, rfl, rfl⟩

/-- Calculator used by concrete witnesses: duration 10s, last accepted 50 % at
    5s, warm-up 2s. -/
def calcW : CalcState := ⟨10, 50, 5, 2⟩

theorem accepted_progress_monotone_witness :
    List.Chain' (· ≤ ·) (acceptedPercents (runCalc calcW [⟨3, -1, .num 2⟩]).1) ∧
    ((calculateProgress calcW 3 (-1) (.num 2)).1.isValid = false ∧
      ((calculateProgress calcW 3 (-1) (.num 2)).2).lastValidPercent = calcW.lastValidPercent ∧
      ((calculateProgress calcW 3 (-1) (.num 2)).2).lastValidTime = calcW.lastValidTime) := by
  refine ⟨accepted_progress_monotone.1 calcW _,
    accepted_progress_monotone.2 calcW 3 (-1) (.num 2) 2 (by norm_num [calcW]) rfl ?_ ?_⟩
  · norm_num [isTimeValid, calcW]
  · norm_num [selectBestPercent, timeBasedPercent, calcW, jsRound, Int.floor_eq_iff]

/-! ## Claim C6 -/

/-- C6: with a known positive total duration, a sample whose parsed time is not
    positive or exceeds 1.2 times the duration is rejected: isValid = false and
    lastValidPercent / lastValidTime are unchanged. -/
theorem implausible_time_rejected (st : CalcState) (e fp : ℚ) (ti : TimeInfo) (t : ℚ)
    (hD : 0 < st.totalDuration)
    (hp : parseTimeInfo ti = some t)
    (ht : st.totalDuration * (6 / 5) < t ∨ t ≤ 0) :
    (calculateProgress st e fp ti).1.isValid = false ∧
      ((calculateProgress st e fp ti).2).lastValidPercent = st.lastValidPercent ∧
      ((calculateProgress st e fp ti).2).lastValidTime = st.lastValidTime := by
  have hv : isTimeValid st t = false := by
    unfold isTimeValid
    rcases ht with h | h
    · have hpos : ¬ t ≤ 0 := not_le.2 (lt_trans (by positivity) h)
      rw [if_neg hpos, if_neg (not_le.2 hD)]
      exact decide_eq_false (not_le.2 h)
    · rw [if_pos h]
  unfold calculateProgress
  split
  · exact ⟨rfl, rfl, rfl⟩
  · rw [hp]
    simp only [hv]
    exact ⟨rfl, rfl, rfl⟩

theorem implausible_time_rejected_witness :
    (calculateProgress calcW 3 0 (.num 13)).1.isValid = false ∧
      ((calculateProgress calcW 3 0 (.num 13)).2).lastValidPercent = calcW.lastValidPercent ∧
      ((calculateProgress calcW 3 0 (.num 13)).2).lastValidTime = calcW.lastValidTime :=
  implausible_time_rejected calcW 3 0 (.num 13) 13 (by norm_num [calcW]) rfl
    (Or.inl (by norm_num [calcW]))

/-! ## Claim C9 -/

/-- C9: with a known positive total duration D, a sample past the warm-up
    interval whose time marker parses to exactly D is accepted with
    percent = 100 (for any calculator whose last accepted percent is within
    its invariant range, percent never exceeding 100). -/
theorem full_duration_gives_100 (st : CalcState) (e fp : ℚ) (ti : TimeInfo)
    (hD : 0 < st.totalDuration)
    (hskip : st.skipInitialSeconds ≤ e)
    (hp : parseTimeInfo ti = some st.totalDuration)
    (hlast : st.lastValidPercent ≤ 100) :
    (calculateProgress st e fp ti).1.isValid = true ∧
      (calculateProgress st e fp ti).1.percent = 100 := by
  have hvalid : isTimeValid st st.totalDuration = true := by
    unfold isTimeValid
    rw [if_neg (not_le.2 hD), if_neg (not_le.2 hD)]
    exact decide_eq_true (by nlinarith)
  have htbp : timeBasedPercent st st.totalDuration = 100 := by
    unfold timeBasedPercent
    rw [if_pos hD, div_self (ne_of_gt hD)]
    have hr : jsRound ((1 : ℚ) * 100) = 100 := by
      unfold jsRound
      norm_num [Int.floor_eq_iff]
    rw [hr]
    norm_num
  have hbest : selectBestPercent st fp (timeBasedPercent st st.totalDuration) = 100 := by
    rw [htbp]
    unfold selectBestPercent
    rw [if_pos ⟨hD, by norm_num, le_refl (100 : ℚ)⟩]
  unfold calculateProgress
  rw [if_neg (not_lt.2 hskip), hp]
  simp only [hvalid, hbest, if_neg (not_lt.2 hlast)]
  exact ⟨rfl, rfl⟩

theorem full_duration_gives_100_witness :
    (calculateProgress calcW 2 0 (.num 10)).1.isValid = true ∧
      (calculateProgress calcW 2 0 (.num 10)).1.percent = 100 :=
  full_duration_gives_100 calcW 2 0 (.num 10) (by norm_num [calcW]) (by norm_num [calcW]) rfl
    (by norm_num [calcW])

/-! ## Claim C10 -/

/-- C10: every call returns a percent equal to lastValidPercent after the call;
    a rejected sample returns exactly the previously accepted percent and time;
    the percent invariant [0,100] is preserved by each call and holds along any
    run from the initial state; and when the total duration is unknown and the
    engine raw percent is outside [0,100] (such as the worker's -1 for
    log-derived events) the returned percent is the last accepted value. -/
theorem percent_tracks_state_and_stays_bounded :
    (∀ (st : CalcState) (e fp : ℚ) (ti : TimeInfo),
      (calculateProgress st e fp ti).1.percent =
        ((calculateProgress st e fp ti).2).lastValidPercent) ∧
    (∀ (st : CalcState) (e fp : ℚ) (ti : TimeInfo),
      (calculateProgress st e fp ti).1.isValid = false →
      (calculateProgress st e fp ti).1.percent = st.lastValidPercent ∧
        (calculateProgress st e fp ti).1.time = st.lastValidTime) ∧
    (∀ (st : CalcState) (e fp : ℚ) (ti : TimeInfo),
      0 ≤ st.lastValidPercent → st.lastValidPercent ≤ 100 →
      0 ≤ ((calculateProgress st e fp ti).2).lastValidPercent ∧
        ((calculateProgress st e fp ti).2).lastValidPercent ≤ 100) ∧
    (∀ (st : CalcState) (e fp : ℚ) (ti : TimeInfo),
      st.totalDuration ≤ 0 → fp < 0 ∨ 100 < fp →
      (calculateProgress st e fp ti).1.percent = st.lastValidPercent) ∧
    (∀ (totalDuration skip : ℚ) (samples : List Sample),
      0 ≤ ((runCalc (initialCalc totalDuration skip) samples).2).lastValidPercent ∧
        ((runCalc (initialCalc totalDuration skip) samples).2).lastValidPercent ≤ 100) := by
  refine ⟨?_, ?_, ?_, ?_, ?_⟩
  · intro st e fp ti
    exact (calculateProgress_percent_eq_state st e fp ti).symm
  · intro st e fp ti h
    exact calculateProgress_invalid_result st e fp ti h
  · intro st e fp ti h0 h100
    exact calculateProgress_state_bounds st e fp ti h0 h100
  · intro st e fp ti htot hfp
    unfold calculateProgress
    split
    · rfl
    · split
      · rfl
      · split
        · rfl
        · have hsel : ∀ t : ℚ,
              selectBestPercent st fp (timeBasedPercent st t) = st.lastValidPercent := by
            intro t
            unfold selectBestPercent
            rw [if_neg, if_neg]
            · rintro ⟨h1, h2⟩
              rcases hfp with h | h
              · exact absurd h1 (not_le.2 h)
              · exact absurd h2 (not_le.2 h)
            · rintro ⟨h1, _⟩
              exact absurd h1 (not_lt.2 htot)
          split
          · rfl
          · rename_i pt _ _ _
            exact hsel pt
  · intro totalDuration skip samples
    exact runCalc_bounds (initialCalc totalDuration skip) samples (le_refl 0)
      (by norm_num [initialCalc])

theorem percent_tracks_state_witness :
    (calculateProgress calcW 3 0 (.num 2)).1.percent =
        ((calculateProgress calcW 3 0 (.num 2)).2).lastValidPercent ∧
    ((calculateProgress calcW 0 0 (.num 2)).1.percent = calcW.lastValidPercent ∧
      (calculateProgress calcW 0 0 (.num 2)).1.time = calcW.lastValidTime) ∧
    (0 ≤ ((calculateProgress calcW 3 0 (.num 2)).2).lastValidPercent ∧
      ((calculateProgress calcW 3 0 (.num 2)).2).lastValidPercent ≤ 100) ∧
    (calculateProgress ⟨0, 30, 1, 2⟩ 3 (-1) (.num 2)).1.percent = (30 : ℚ) ∧
    (0 ≤ ((runCalc (initialCalc 10 2) [⟨3, 50, .num 4⟩]).2).lastValidPercent ∧
      ((runCalc (initialCalc 10 2) [⟨3, 50, .num 4⟩]).2).lastValidPercent ≤ 100) :=
  ⟨percent_tracks_state_and_stays_bounded.1 calcW 3 0 (.num 2),
   percent_tracks_state_and_stays_bounded.2.1 calcW 0 0 (.num 2)
     (by norm_num [calculateProgress, calcW]),
   percent_tracks_state_and_stays_bounded.2.2.1 calcW 3 0 (.num 2)
     (by norm_num [calcW]) (by norm_num [calcW]),
   percent_tracks_state_and_stays_bounded.2.2.2.1 ⟨0, 30, 1, 2⟩ 3 (-1) (.num 2)
     (le_refl 0) (Or.inl (by norm_num)),
   percent_tracks_state_and_stays_bounded.2.2.2.2 10 2 [⟨3, 50, .num 4⟩]⟩

/-! ## Claim C4 (corrected) -/

/-- C4 counterexample: the microsecond division does not apply to numeric time
    inputs; parseTimeInfo returns the number 5000000 verbatim instead of 5. -/
theorem parseTimeInfo_numeric_not_divided :
    parseTimeInfo (.num 5000000) = some 5000000 ∧
      ¬ parseTimeInfo (.num 5000000) = some 5 := by
  refine ⟨rfl, ?_⟩
  simp only [parseTimeInfo, Option.some.injEq]
  norm_num

/-- C4 amended: only for string inputs (that do not match the `time=HH:MM:SS`
    pattern) whose extracted numeric value exceeds 1,000,000 does parseTimeInfo
    treat the value as microseconds and divide by 1,000,000; numeric inputs are
    returned unchanged. In particular the digit string "5000000" yields 5.0
    while the number 5000000 yields 5000000. -/
theorem parseTimeInfo_microseconds_string_only :
    parseTimeInfo (.str "5000000") = some 5 ∧
    (∀ x : ℚ, parseTimeInfo (.num x) = some x) ∧
    (∀ (s : String) (x : ℚ),
      findFFmpegTime s.data = none →
      findSimpleNumber s.data = some x →
      1000000 < x →
      parseTimeInfo (.str s) = some (x / 1000000)) := by
  refine ⟨?_, fun x => rfl, ?_⟩
  · simp [parseTimeInfo, findFFmpegTime, matchFFmpegTimeAt, stripPattern, findSimpleNumber,
      decimalOfDigits, natOfDigits, digitVal]
    norm_num
  · intro s x hff hsimple hgt
    simp [parseTimeInfo, hff, hsimple, hgt]

theorem parseTimeInfo_microseconds_witness :
    parseTimeInfo (.str "5000000") = some (5000000 / 1000000) :=
  parseTimeInfo_microseconds_string_only.2.2 "5000000" 5000000
    (by simp [findFFmpegTime, matchFFmpegTimeAt, stripPattern])
    (by simp [findSimpleNumber, decimalOfDigits, natOfDigits, digitVal])
    (by norm_num)

/-! ## Claim C7: getOptimalSettings (two divergent copies in the source file) -/

/-- Parameter profile returned by getOptimalSettings. -/
structure ConversionSettings where
  preset : String
  crf : ℕ
  audioBitrate : String
  fastMode : Bool
  priority : String
deriving Repr, DecidableEq

/-- OptimizedFFmpegConverter.getOptimalSettings, first copy of the class
    (ffmpeg-converter-optimized.js lines 119-151). -/
def getOptimalSettings (fileSize : ℚ) : ConversionSettings :=
  if fileSize / (1024 * 1024) < 1 then ⟨"ultrafast", 30, "64k", true, "speed"⟩
  else if fileSize / (1024 * 1024) < 5 then ⟨"ultrafast", 28, "96k", true, "balanced"⟩
  else ⟨"veryfast", 26, "128k", true, "quality"⟩

/-- OptimizedFFmpegConverter.getOptimalSettings, second copy of the class
    (ffmpeg-converter-optimized.js lines 599-631). -/
def getOptimalSettingsV2 (fileSize : ℚ) : ConversionSettings :=
  if fileSize / (1024 * 1024) < 1 then ⟨"ultrafast", 32, "48k", true, "speed"⟩
  else if fileSize / (1024 * 1024) < 5 then ⟨"ultrafast", 30, "64k", true, "speed"⟩
  else ⟨"ultrafast", 28, "80k", true, "speed"⟩

/-- Position of a preset name on the x264 speed ladder (0 = fastest). -/
def presetRank (p : String) : ℕ :=
  if p = "ultrafast" then 0
  else if p = "superfast" then 1
  else if p = "veryfast" then 2
  else if p = "faster" then 3
  else if p = "fast" then 4
  else if p = "medium" then 5
  else 6

/-- Numeric value in kbit/s of the audio bitrate strings used by the profiles. -/
def audioKbps (s : String) : ℕ :=
  if s = "48k" then 48
  else if s = "64k" then 64
  else if s = "80k" then 80
  else if s = "96k" then 96
  else if s = "128k" then 128
  else 0

/-- Index of the size tier selected by both copies: below 1 MiB, 1-5 MiB,
    above 5 MiB. -/
def sizeTier (fileSize : ℚ) : ℕ :=
  if fileSize / (1024 * 1024) < 1 then 0
  else if fileSize / (1024 * 1024) < 5 then 1
  else 2

/-- Tier table of the first copy. -/
def tierSettings : ℕ → ConversionSettings
  | 0 => ⟨"ultrafast", 30, "64k", true, "speed"⟩
  | 1 => ⟨"ultrafast", 28, "96k", true, "balanced"⟩
  | _ => ⟨"veryfast", 26, "128k", true, "quality"⟩

/-- Tier table of the second copy. -/
def tierSettingsV2 : ℕ → ConversionSettings
  | 0 => ⟨"ultrafast", 32, "48k", true, "speed"⟩
  | 1 => ⟨"ultrafast", 30, "64k", true, "speed"⟩
  | _ => ⟨"ultrafast", 28, "80k", true, "speed"⟩

theorem getOptimalSettings_eq_tier (fs : ℚ) :
    getOptimalSettings fs = tierSettings (sizeTier fs) ∧
      getOptimalSettingsV2 fs = tierSettingsV2 (sizeTier fs) := by
  by_cases h1 : fs / (1024 * 1024) < 1
  · simp [getOptimalSettings, getOptimalSettingsV2, sizeTier, h1, tierSettings, tierSettingsV2]
  · by_cases h2 : fs / (1024 * 1024) < 5
    · simp [getOptimalSettings, getOptimalSettingsV2, sizeTier, h1, h2, tierSettings,
        tierSettingsV2]
    · simp [getOptimalSettings, getOptimalSettingsV2, sizeTier, h1, h2, tierSettings,
        tierSettingsV2]

theorem sizeTier_le_two (fs : ℚ) : sizeTier fs ≤ 2 := by
  unfold sizeTier
  split_ifs <;> omega

theorem sizeTier_mono {a b : ℚ} (hab : a ≤ b) : sizeTier a ≤ sizeTier b := by
  have hd : a / (1024 * 1024) ≤ b / (1024 * 1024 : ℚ) := by gcongr
  unfold sizeTier
  split_ifs <;> first | omega | linarith

/-- C7 counterexample: in the second (later) copy of getOptimalSettings, an
    input above 5 MiB receives the fastest preset (rank 0, "ultrafast"), not a
    slightly slower one; only the first copy uses the slower "veryfast". -/
theorem getOptimalSettings_above5MiB_not_slower :
    presetRank (getOptimalSettingsV2 (6 * 1024 * 1024)).preset = 0 ∧
    (getOptimalSettingsV2 (6 * 1024 * 1024)).preset = "ultrafast" ∧
    (getOptimalSettings (6 * 1024 * 1024)).preset = "veryfast" ∧
    presetRank "ultrafast" < presetRank (getOptimalSettings (6 * 1024 * 1024)).preset := by
  norm_num [getOptimalSettings, getOptimalSettingsV2, presetRank]
  decide

/-- C7 amended: both copies of getOptimalSettings have exactly the three
    documented size tiers. In the first copy the tiers are
    ultrafast/crf 30/64k, ultrafast/crf 28/96k and veryfast/crf 26/128k (the
    highest tier uses a slightly slower preset, a lower compression factor and
    a higher audio bitrate); in the second copy all three tiers use the fastest
    preset (crf 32/30/28, audio 48k/64k/80k). In both copies the selection is
    monotone: a larger input never gets a faster preset, a higher compression
    factor, or a lower audio bitrate than a smaller input. -/
theorem getOptimalSettings_tiers_and_monotone :
    (∀ fs : ℚ,
      (fs < 1048576 →
        getOptimalSettings fs = ⟨"ultrafast", 30, "64k", true, "speed"⟩ ∧
        getOptimalSettingsV2 fs = ⟨"ultrafast", 32, "48k", true, "speed"⟩) ∧
      (1048576 ≤ fs → fs < 5242880 →
        getOptimalSettings fs = ⟨"ultrafast", 28, "96k", true, "balanced"⟩ ∧
        getOptimalSettingsV2 fs = ⟨"ultrafast", 30, "64k", true, "speed"⟩) ∧
      (5242880 ≤ fs →
        getOptimalSettings fs = ⟨"veryfast", 26, "128k", true, "quality"⟩ ∧
        getOptimalSettingsV2 fs = ⟨"ultrafast", 28, "80k", true, "speed"⟩)) ∧
    (∀ a b : ℚ, a ≤ b →
      presetRank (getOptimalSettings a).preset ≤ presetRank (getOptimalSettings b).preset ∧
      (getOptimalSettings b).crf ≤ (getOptimalSettings a).crf ∧
      audioKbps (getOptimalSettings a).audioBitrate ≤
        audioKbps (getOptimalSettings b).audioBitrate ∧
      presetRank (getOptimalSettingsV2 a).preset ≤ presetRank (getOptimalSettingsV2 b).preset ∧
      (getOptimalSettingsV2 b).crf ≤ (getOptimalSettingsV2 a).crf ∧
      audioKbps (getOptimalSettingsV2 a).audioBitrate ≤
        audioKbps (getOptimalSettingsV2 b).audioBitrate) := by
  constructor
  · intro fs
    refine ⟨fun h1 => ?_, fun h1 h2 => ?_, fun h1 => ?_⟩
    · have hc : fs / (1024 * 1024) < 1 := by
        rw [div_lt_one (by norm_num)]
        norm_num [h1]
      simp [getOptimalSettings, getOptimalSettingsV2, hc]
    · have hc1 : ¬ fs / (1024 * 1024) < 1 := by
        rw [not_lt, le_div_iff (by norm_num)]
        norm_num [h1]
      have hc2 : fs / (1024 * 1024) < 5 := by
        rw [div_lt_iff (by norm_num)]
        norm_num [h2]
      simp [getOptimalSettings, getOptimalSettingsV2, hc1, hc2]
    · have hc2 : ¬ fs / (1024 * 1024) < 5 := by
        rw [not_lt, le_div_iff (by norm_num)]
        norm_num [h1]
      have hc1 : ¬ fs / (1024 * 1024) < 1 := by
        rw [not_lt, le_div_iff (by norm_num)]
        norm_num
        linarith
      simp [getOptimalSettings, getOptimalSettingsV2, hc1, hc2]
  · intro a b hab
    obtain ⟨ea1, ea2⟩ := getOptimalSettings_eq_tier a
    obtain ⟨eb1, eb2⟩ := getOptimalSettings_eq_tier b
    rw [ea1, ea2, eb1, eb2]
    have hmono := sizeTier_mono hab
    have ha2 := sizeTier_le_two a
    have hb2 := sizeTier_le_two b
    interval_cases h : sizeTier a <;> interval_cases h2 : sizeTier b <;>
      simp_all [tierSettings, tierSettingsV2, presetRank, audioKbps]

theorem getOptimalSettings_tiers_witness :
    (getOptimalSettings 500000 = ⟨"ultrafast", 30, "64k", true, "speed"⟩ ∧
      getOptimalSettingsV2 500000 = ⟨"ultrafast", 32, "48k", true, "speed"⟩) ∧
    (getOptimalSettings 2097152 = ⟨"ultrafast", 28, "96k", true, "balanced"⟩ ∧
      getOptimalSettingsV2 2097152 = ⟨"ultrafast", 30, "64k", true, "speed"⟩) ∧
    (getOptimalSettings 6291456 = ⟨"veryfast", 26, "128k", true, "quality"⟩ ∧
      getOptimalSettingsV2 6291456 = ⟨"ultrafast", 28, "80k", true, "speed"⟩) ∧
    presetRank (getOptimalSettings 500000).preset ≤
      presetRank (getOptimalSettings 6291456).preset :=
  ⟨(getOptimalSettings_tiers_and_monotone.1 500000).1 (by norm_num),
   (getOptimalSettings_tiers_and_monotone.1 2097152).2.1 (by norm_num) (by norm_num),
   (getOptimalSettings_tiers_and_monotone.1 6291456).2.2 (by norm_num),
   (getOptimalSettings_tiers_and_monotone.2 500000 6291456 (by norm_num)).1⟩

/-! ## Claim C8: even output dimensions for composition -/

/-- JS String.split with the single-character separator, as used on the
    `width:height` geometry strings. -/
def splitOnColon : List Char → List (List Char)
  | [] => [[]]
  | c :: rest =>
    if c = ':' then [] :: splitOnColon rest
    else
      match splitOnColon rest with
      | [] => [[c]]
      | g :: gs => (c :: g) :: gs

/-- JS Number() on one piece of the geometry string (digit strings only, as
    produced for positive integer dimensions). -/
def jsNumberOfDigits (l : List Char) : Option ℤ :=
  if l ≠ [] ∧ l.all Char.isDigit then some ((natOfDigits l : ℕ) : ℤ) else none

/-- One dimension of the requested output size made even, as computed in
    compositeVideo (ffmpeg-worker.js lines 633-634) and compositeDirect
    (ffmpeg-converter-optimized.js lines 932-933). -/
def evenDimension (n : ℤ) : ℤ := if n % 2 = 0 then n else n + 1

/-- The evenOutputSize computation of compositeVideo / compositeDirect: split
    the requested size on the colon, convert to numbers, make each dimension
    even and rejoin for the engine command. -/
def evenOutputSize (outputSize : String) : Option String :=
  match (splitOnColon outputSize.data).map jsNumberOfDigits with
  | [some w, some h] =>
    some (toString (evenDimension w) ++ ":" ++ toString (evenDimension h))
  | _ => none

/-- C8: each odd dimension of a requested composite output size is adjusted to
    the next even integer and each even dimension is unchanged before the size
    is placed into the engine command; in particular 641:481 is passed
    downstream as 642:482. -/
theorem even_dimension_adjustment :
    (∀ n : ℤ, 0 < n →
      (n % 2 = 0 → evenDimension n = n) ∧
      (n % 2 ≠ 0 → evenDimension n = n + 1) ∧
      2 ∣ evenDimension n ∧ n ≤ evenDimension n ∧
      (∀ m : ℤ, 2 ∣ m → n ≤ m → evenDimension n ≤ m)) ∧
    evenOutputSize "641:481" = some "642:482" := by
  constructor
  · intro n hn
    unfold evenDimension
    rcases Int.emod_two_eq n with h | h
    · rw [if_pos h]
      exact ⟨fun _ => rfl, fun hc => absurd h hc, Int.dvd_of_emod_eq_zero h, le_refl n,
        fun m _ hm => hm⟩
    · rw [if_neg (by omega)]
      refine ⟨fun hc => by omega, fun _ => rfl, by omega, by omega, fun m hm hnm => by omega⟩
  · rfl

theorem even_dimension_adjustment_witness :
    ((641 : ℤ) % 2 ≠ 0 → evenDimension 641 = 642) ∧
      ((482 : ℤ) % 2 = 0 → evenDimension 482 = 482) ∧
      evenOutputSize "641:481" = some "642:482" :=
  ⟨fun _ => by
      have h := (even_dimension_adjustment.1 641 (by norm_num)).2.1 (by decide)
      omega,
   fun h2 => (even_dimension_adjustment.1 482 (by norm_num)).1 h2,
   even_dimension_adjustment.2⟩

/-! ## Claim C2: loadFFmpegWithRetry (github-pages-config.js lines 78-155) -/

/-- Observable actions of loadFFmpegWithRetry: a reachability probe of a
    source (validateResourceURL), a linear backoff wait of `att` time units
    taken after attempt `att`, and a dynamic module load. The candidate
    sources are indexed in preference order: 0 = local bundle,
    1 = primary CDN (unpkg), 2 = backup CDN (jsdelivr). -/
inductive LoadEvent where
  | probe (src att : ℕ)
  | waitRetry (src att : ℕ)
  | moduleLoad (src att : ℕ)
deriving Repr, DecidableEq

/-- The errors thrown inside one attempt of loadFFmpegWithRetry. -/
inductive LoadError where
  | inaccessible
  | corsUnsupported
  | loadFailed
deriving Repr, DecidableEq

/-- Network and loader environment: per source and attempt number, whether the
    probe reports the source reachable, whether the CORS check passes, and
    whether the dynamic module load succeeds. -/
structure LoadEnv where
  accessible : ℕ → ℕ → Bool
  corsOk : ℕ → ℕ → Bool
  moduleOk : ℕ → ℕ → Bool

/-- The inner attempt loop of loadFFmpegWithRetry (lines 95-147) for source
    `src`, at attempt number `att` with `remaining + 1` attempts left
    including the current one (`remaining = 0` exactly on the final attempt,
    when `att = maxRetries`). An unreachable probe on a non-final attempt
    waits and retries without recording an error; on the final attempt it
    throws the inaccessible error. A failed CORS check (non-local sources
    only) or a failed load records the error and waits before the next
    attempt. Returns the loaded module as its (source, attempt) pair, the
    updated lastError, and the emitted event trace. -/
def tryLoadAttempts (env : LoadEnv) (src : ℕ) :
    ℕ → ℕ → Option LoadError → Option (ℕ × ℕ) × Option LoadError × List LoadEvent
  | _, 0, lastError => (none, lastError, [])
  | att, remaining + 1, lastError =>
    if env.accessible src att = false then
      if remaining = 0 then (none, some .inaccessible, [.probe src att])
      else
        ((tryLoadAttempts env src (att + 1) remaining lastError).1,
         (tryLoadAttempts env src (att + 1) remaining lastError).2.1,
         .probe src att :: .waitRetry src att ::
           (tryLoadAttempts env src (att + 1) remaining lastError).2.2)
    else if src ≠ 0 ∧ env.corsOk src att = false then
      if remaining = 0 then (none, some .corsUnsupported, [.probe src att])
      else
        ((tryLoadAttempts env src (att + 1) remaining (some .corsUnsupported)).1,
         (tryLoadAttempts env src (att + 1) remaining (some .corsUnsupported)).2.1,
         .probe src att :: .waitRetry src att ::
           (tryLoadAttempts env src (att + 1) remaining (some .corsUnsupported)).2.2)
    else if env.moduleOk src att then
      (some (src, att), lastError, [.probe src att, .moduleLoad src att])
    else
      if remaining = 0 then (none, some .loadFailed, [.probe src att, .moduleLoad src att])
      else
        ((tryLoadAttempts env src (att + 1) remaining (some .loadFailed)).1,
         (tryLoadAttempts env src (att + 1) remaining (some .loadFailed)).2.1,
         .probe src att :: .moduleLoad src att :: .waitRetry src att ::
           (tryLoadAttempts env src (att + 1) remaining (some .loadFailed)).2.2)

/-- The outer source loop of loadFFmpegWithRetry (lines 87-152): iterate the
    candidate sources in preference order, threading lastError; return the
    first successfully loaded module, or — only after every source has
    exhausted its attempts — the final error, which wraps the last error
    encountered (`none` standing for the unknown-error default). -/
def trySources (env : LoadEnv) (maxRetries : ℕ) :
    List ℕ → Option LoadError → Except (Option LoadError) (ℕ × ℕ) × List LoadEvent
  | [], lastError => (.error lastError, [])
  | src :: rest, lastError =>
    match tryLoadAttempts env src 1 maxRetries lastError with
    | (some m, _, evs) => (.ok m, evs)
    | (none, le, evs) =>
      ((trySources env maxRetries rest le).1, evs ++ (trySources env maxRetries rest le).2)

/-- GitHubPagesConfig.loadFFmpegWithRetry over its three candidate sources. -/
def loadFFmpegWithRetry (env : LoadEnv) (maxRetries : ℕ) :
    Except (Option LoadError) (ℕ × ℕ) × List LoadEvent :=
  trySources env maxRetries [0, 1, 2] none

/-- Event trace of one source whose probes all report unreachable: probes at
    attempts 1..maxRetries, with a backoff wait of `att` units after each
    non-final attempt `att`. -/
def unreachableTrace (src maxRetries : ℕ) : List LoadEvent :=
  ((List.range' 1 (maxRetries - 1)).flatMap fun a => [.probe src a, .waitRetry src a]) ++
    [.probe src maxRetries]

/-- Recognizes the probe events of one source. -/
def isProbeOf (src : ℕ) : LoadEvent → Bool
  | .probe s _ => s == src
  | _ => false

theorem tryLoadAttempts_unreachable (env : LoadEnv) (src : ℕ)
    (h : ∀ a, env.accessible src a = false) (r : ℕ) :
    ∀ (att : ℕ) (le : Option LoadError),
      tryLoadAttempts env src att (r + 1) le =
        (none, some .inaccessible,
          ((List.range' att r).flatMap fun a => [.probe src a, .waitRetry src a]) ++
            [.probe src (att + r)]) := by
  induction r with
  | zero => intro att le; simp [tryLoadAttempts, h]
  | succ n ih =>
    intro att le
    rw [tryLoadAttempts]
    simp only [h att, if_pos rfl, Nat.succ_ne_zero, if_neg (Nat.succ_ne_zero n), ih (att + 1) le]
    simp [List.range'_succ]
    omega

theorem countP_unreachablePairs (src : ℕ) :
    ∀ (r att : ℕ),
      (((List.range' att r).flatMap fun a =>
          [LoadEvent.probe src a, LoadEvent.waitRetry src a]).countP (isProbeOf src)) = r := by
  intro r
  induction r with
  | zero => intro att; simp
  | succ n ih =>
    intro att
    simp [List.range'_succ, List.countP_cons, isProbeOf, ih]

/-- C2: with every probe of the first source unreachable and the second source
    reachable on its first attempt, loadFFmpegWithRetry probes the first
    source exactly maxRetries times with linearly growing waits between
    attempts, then advances to the second source and returns the module loaded
    from it; and when every probe of every source is unreachable, it exhausts
    maxRetries attempts on each of the three sources and only then throws,
    carrying the last error encountered. -/
theorem loadWithRetry_second_source (maxRetries : ℕ) (env : LoadEnv)
    (h1 : ∀ a, env.accessible 0 a = false)
    (h2 : env.accessible 1 1 = true)
    (h3 : env.corsOk 1 1 = true)
    (h4 : env.moduleOk 1 1 = true)
    (hM : 1 ≤ maxRetries) :
    ((loadFFmpegWithRetry env maxRetries).1 = .ok (1, 1) ∧
      (loadFFmpegWithRetry env maxRetries).2 =
        unreachableTrace 0 maxRetries ++ [.probe 1 1, .moduleLoad 1 1] ∧
      ((loadFFmpegWithRetry env maxRetries).2.countP (isProbeOf 0)) = maxRetries) ∧
    (∀ env2 : LoadEnv, (∀ s a, env2.accessible s a = false) →
      (loadFFmpegWithRetry env2 maxRetries).1 = .error (some .inaccessible) ∧
      (loadFFmpegWithRetry env2 maxRetries).2 =
        unreachableTrace 0 maxRetries ++ (unreachableTrace 1 maxRetries ++
          unreachableTrace 2 maxRetries)) := by
  obtain ⟨r, rfl⟩ : ∃ r, maxRetries = r + 1 := ⟨maxRetries - 1, by omega⟩
  constructor
  · have e0 := tryLoadAttempts_unreachable env 0 h1 r 1 none
    have e1 : tryLoadAttempts env 1 1 (r + 1) (some .inaccessible) =
        (some (1, 1), some .inaccessible, [.probe 1 1, .moduleLoad 1 1]) := by
      rcases r with _ | n <;>
        simp [tryLoadAttempts, h2, h3, h4]
    have h1r : 1 + r = r + 1 := by omega
    refine ⟨?_, ?_, ?_⟩
    · simp [loadFFmpegWithRetry, trySources, e0, e1]
    · simp [loadFFmpegWithRetry, trySources, e0, e1, unreachableTrace, h1r]
    · simp [loadFFmpegWithRetry, trySources, e0, e1, List.countP_append,
        countP_unreachablePairs, List.countP_cons, isProbeOf]
  · intro env2 hAll
    have e0 := tryLoadAttempts_unreachable env2 0 (hAll 0) r 1 none
    have e1 := tryLoadAttempts_unreachable env2 1 (hAll 1) r 1 (some .inaccessible)
    have e2 := tryLoadAttempts_unreachable env2 2 (hAll 2) r 1 (some .inaccessible)
    have h1r : 1 + r = r + 1 := by omega
    constructor
    · simp [loadFFmpegWithRetry, trySources, e0, e1, e2]
    · simp [loadFFmpegWithRetry, trySources, e0, e1, e2, unreachableTrace, h1r]

/-- Loader environment for the witness: source 0 never reachable, the CDN
    sources reachable with CORS and loads succeeding. -/
def loadEnvW : LoadEnv :=
  ⟨fun s _ => decide (s ≠ 0), fun _ _ => true, fun _ _ => true⟩

/-- Loader environment where nothing is reachable. -/
def loadEnvNone : LoadEnv := ⟨fun _ _ => false, fun _ _ => true, fun _ _ => true⟩

theorem loadWithRetry_second_source_witness :
    (loadFFmpegWithRetry loadEnvW 3).1 = .ok (1, 1) ∧
      (loadFFmpegWithRetry loadEnvNone 3).1 = .error (some .inaccessible) :=
  ⟨(loadWithRetry_second_source 3 loadEnvW (fun a => by simp [loadEnvW]) (by simp [loadEnvW])
      (by simp [loadEnvW]) (by simp [loadEnvW]) (by norm_num)).1.1,
   ((loadWithRetry_second_source 3 loadEnvW (fun a => by simp [loadEnvW]) (by simp [loadEnvW])
      (by simp [loadEnvW]) (by simp [loadEnvW]) (by norm_num)).2 loadEnvNone
      (fun s a => by simp [loadEnvNone])).1⟩

/-! ## Claim C3: cancellation rejects the promise and suppresses later messages -/

/-- Settlement state of the conversion promise created by convertWithWorker. -/
inductive PromiseState where
  | pending
  | resolved
  | rejectedCancelled
  | rejectedError
deriving Repr, DecidableEq

/-- Converter-side state relevant to one conversion started by
    convertWithWorker: the isCancelled flag, whether currentReject is still
    set, and the settlement state of the conversion promise. -/
structure ConverterState where
  isCancelled : Bool
  hasReject : Bool
  promise : PromiseState
deriving Repr, DecidableEq

/-- Messages posted by the worker to the converter during a conversion. -/
inductive WorkerMessage where
  | progress (percent time : ℚ)
  | log (message : String)
  | completed
  | resetComplete
  | error (message : String)

/-- Callback invocations forwarded to the caller. -/
inductive CallbackEvent where
  | onProgress (percent time : ℚ)
  | onLog (message : String)

/-- A JS promise settles only once: resolve is a no-op unless pending. -/
def settleResolve : PromiseState → PromiseState
  | .pending => .resolved
  | s => s

/-- Rejection with the cancellation error, only if still pending. -/
def settleRejectCancelled : PromiseState → PromiseState
  | .pending => .rejectedCancelled
  | s => s

/-- Rejection with a worker-reported error, only if still pending. -/
def settleRejectError : PromiseState → PromiseState
  | .pending => .rejectedError
  | s => s

/-- The worker.onmessage handler installed by convertWithWorker
    (ffmpeg-converter-optimized.js lines 684-718): every message is dropped
    when isCancelled is set; otherwise progress and log messages are forwarded
    to the caller callbacks, completed resolves the promise (clearing
    currentReject) and error rejects it. -/
def handleWorkerMessage (st : ConverterState) (m : WorkerMessage) :
    ConverterState × List CallbackEvent :=
  if st.isCancelled then (st, [])
  else
    match m with
    | .progress p t => (st, [.onProgress p t])
    | .log msg => (st, [.onLog msg])
    | .completed => ({ st with hasReject := false, promise := settleResolve st.promise }, [])
    | .resetComplete => (st, [])
    | .error _ => ({ st with hasReject := false, promise := settleRejectError st.promise }, [])

/-- cancelConversion (lines 1087-1120): set isCancelled and, when a conversion
    is pending (currentReject set), reject its promise with the cancellation
    error and clear currentReject. -/
def cancelConversion (st : ConverterState) : ConverterState :=
  if st.hasReject then
    { isCancelled := true, hasReject := false,
      promise := settleRejectCancelled st.promise }
  else { st with isCancelled := true }

/-- Deliver a sequence of worker messages to the converter (the main thread
    handles them one at a time, in arrival order). -/
def processMessages (st : ConverterState) :
    List WorkerMessage → ConverterState × List CallbackEvent
  | [] => (st, [])
  | m :: rest =>
    ((processMessages (handleWorkerMessage st m).1 rest).1,
     (handleWorkerMessage st m).2 ++ (processMessages (handleWorkerMessage st m).1 rest).2)

theorem processMessages_cancelled (st : ConverterState) (h : st.isCancelled = true) :
    ∀ msgs : List WorkerMessage, processMessages st msgs = (st, []) := by
  intro msgs
  induction msgs with
  | nil => rfl
  | cons m rest ih =>
    have hm : handleWorkerMessage st m = (st, []) := by
      unfold handleWorkerMessage
      rw [if_pos h]
    simp [processMessages, hm, ih]

/-- C3: if cancelConversion is called while a conversion started by
    convertWithWorker is pending (currentReject set, promise pending), the
    promise is rejected with the cancellation error immediately — hence before
    any subsequent completed message could be delivered — and every worker
    message arriving afterwards (progress, log, completed, reset, error) is
    suppressed: no callback fires and the promise never leaves the
    rejected-cancelled state. -/
theorem cancel_rejects_and_suppresses (st : ConverterState) (msgs : List WorkerMessage)
    (hr : st.hasReject = true) (hp : st.promise = .pending) :
    (cancelConversion st).promise = .rejectedCancelled ∧
    (processMessages (cancelConversion st) msgs).1.promise = .rejectedCancelled ∧
    (processMessages (cancelConversion st) msgs).2 = [] := by
  have hc : cancelConversion st = ⟨true, false, .rejectedCancelled⟩ := by
    unfold cancelConversion
    rw [if_pos hr, hp]
    rfl
  rw [hc]
  have hall := processMessages_cancelled ⟨true, false, .rejectedCancelled⟩ rfl msgs
  rw [hall]
  exact ⟨rfl, rfl, rfl⟩

theorem cancel_rejects_and_suppresses_witness :
    (cancelConversion ⟨false, true, .pending⟩).promise = .rejectedCancelled ∧
    (processMessages (cancelConversion ⟨false, true, .pending⟩)
        [.completed, .progress 50 2, .log "x", .error "boom"]).1.promise = .rejectedCancelled ∧
    (processMessages (cancelConversion ⟨false, true, .pending⟩)
        [.completed, .progress 50 2, .log "x", .error "boom"]).2 = [] :=
  cancel_rejects_and_suppresses ⟨false, true, .pending⟩
    [.completed, .progress 50 2, .log "x", .error "boom"] rfl rfl

/-! ## Claim C5: the automatic fastMode-disabled retry -/

/-- Messages posted by the worker convertVideo, tagged with the call number
    (0 = first submission, 1 = the automatic fastMode-disabled retry). -/
inductive ConvertOut where
  | logMsg (call : ℕ)
  | completed (call : ℕ)
  | errorMsg (call : ℕ)
  | logRetry (call : ℕ)
deriving Repr, DecidableEq

/-- ffmpeg-worker.js convertVideo (lines 392-494): on success the worker posts
    its logs and the completed buffer; on engine failure it FIRST posts the
    error message (surfacing the failure to the main thread) and only then,
    when options.fastMode is not exactly false, logs and performs one retry
    with fastMode disabled. `execOk call` tells whether the engine exec of the
    given call succeeds; fastMode `none` models an absent option. -/
def convertVideo (execOk : ℕ → Bool) (fastMode : Option Bool) (call : ℕ) : List ConvertOut :=
  if execOk call then [.logMsg call, .completed call]
  else
    .logMsg call :: .errorMsg call ::
      (if h : fastMode = some false then []
       else .logRetry call :: convertVideo execOk (some false) (call + 1))
termination_by (if fastMode = some false then 0 else 1)
decreasing_by simp_all

/-- OptimizedFFmpegConverter.convertDirect (lines 742-800): on engine failure,
    when options.fastMode is not exactly false, the same job is resubmitted
    once with fastMode disabled; the error is rethrown (surfaced) only when
    fastMode is already false. The result records which call produced the
    output or which call's error was surfaced. -/
def convertDirect (execOk : ℕ → Bool) (fastMode : Option Bool) (call : ℕ) : Except ℕ ℕ :=
  if execOk call then .ok call
  else if h : fastMode = some false then .error call
  else convertDirect execOk (some false) (call + 1)
termination_by (if fastMode = some false then 0 else 1)
decreasing_by simp_all

/-- C5 (code bug, worker path): with the fast path enabled and the engine
    failing, the worker posts the surfaced error message (errorMsg 0, which
    rejects the caller promise) BEFORE its single fastMode-disabled retry
    (call 1), so the failure reaches the caller before the recovery attempt
    and the retry result is discarded; convertDirect, by contrast, resubmits
    exactly once before surfacing; with fastMode = false neither path ever
    resubmits. -/
theorem convertVideo_error_surfaced_before_retry :
    convertVideo (fun _ => false) (some true) 0 =
      [.logMsg 0, .errorMsg 0, .logRetry 0, .logMsg 1, .errorMsg 1] ∧
    convertVideo (fun _ => false) (some false) 0 = [.logMsg 0, .errorMsg 0] ∧
    convertDirect (fun _ => false) (some true) 0 = .error 1 ∧
    convertDirect (fun c => c == 1) (some true) 0 = .ok 1 ∧
    convertDirect (fun _ => false) (some false) 0 = .error 0 := by
  refine ⟨?_, ?_, ?_, ?_, ?_⟩ <;>
    simp [convertVideo, convertDirect]

end WebmToMp4
